import Mathlib

/-!
Verification of the udi-phantomblinds-pg3x node server core.

This file gives a shallow embedding, in Lean 4, of the parts of the
repository that the verified properties are about:

* the scene-activity calculator of `nodes/Scene.py`
  (`calcActive`, `_check_member_positions`, `_check_individual_positions`,
  `_get_shade_position_and_div`, `_handle_match`, `_handle_no_match`);
* the timestamp-ordered event selection of `Scene._poll_events_for_tahoma`
  and `Shade._poll_events_for_g3`;
* the event-polling retry/backoff loop of `Controller._poll_events`;
* the discovery pass of `Controller.discover` with its helpers;
* the registry merge of `Controller.update_shade_data`;
* the configuration validators of `utils/config_validation.py`.

Python dictionaries are embedded as association lists looked up by key
(first occurrence wins, as a Python dict has unique keys); Python `None`
is `Option.none`; Python exceptions are the error side of `Except`.
Position values are integers, timestamps are naturals ordered as the
ISO-date strings of the source are ordered.
-/

namespace PhantomBlinds

/-- Association-list lookup: `d.get(k)` on a Python dict embedded as a
key/value list.  Returns the value at the first occurrence of the key. -/
def aget {β : Type} (l : List (String × β)) (k : String) : Option β :=
  match l with
  | [] => none
  | (k2, v) :: rest => if k2 = k then some v else aget rest k

/-- `k in d` on a Python dict embedded as a key/value list. -/
def hasKey {β : Type} (l : List (String × β)) (k : String) : Bool :=
  (aget l k).isSome

/-- A positions dictionary (`shade["positions"]`): keys `"primary"`,
`"secondary"`, `"tilt"` mapped to an integer or to Python `None`. -/
abbrev PosDict : Type := List (String × Option Int)

/-- `positions.get(key)`: Python returns `None` both when the key is
absent and when the stored value is `None`. -/
def pget (d : PosDict) (k : String) : Option Int :=
  match aget d k with
  | some v => v
  | none => none

/-- A shade record held in the controller's `devices_map`: the fields
`Scene.py` reads are `"capabilities"` (absent ⇒ `none`) and
`"positions"` (absent ⇒ the empty dict, via `shade.get("positions", {})`). -/
structure ShadeRec where
  capabilities : Option Int
  positions : PosDict
deriving Repr, DecidableEq

/-- A scene member (`scenes_map[sid]["members"][i]`): the fields read are
`"shd_Id"` (absent ⇒ `none`, via `sh.get("shd_Id")`) and `"pos"`
(absent ⇒ empty, via `sh.get("pos", {})`), the target-position dict. -/
structure Member where
  shd_Id : Option String
  pos : List (String × Int)
deriving Repr, DecidableEq

/-- The controller's `devices_map`, keyed by shade id / device URL. -/
abbrev DevMap : Type := List (String × ShadeRec)

/-- `Controller.get_shade_data(sid)` as called with `sh.get("shd_Id")`:
`devices_map.get(sid)`, where looking up Python `None` finds nothing. -/
def getShadeData (dm : DevMap) (osid : Option String) : Option ShadeRec :=
  match osid with
  | none => none
  | some sid => aget dm sid

/-- `Scene._get_shade_position_and_div(scene_pos_key, shade)`: maps a
scene target key to the shade position field it is compared against and
the divisor applied to the target value.  Capability class 7 swaps
`pos1`/`pos2` between `primary` and `secondary`. -/
def getShadePositionAndDiv (scene_pos_key : String) (shade : ShadeRec) :
    Option (String × Int) :=
  if scene_pos_key = "vel" then none
  else if scene_pos_key = "pos1" then
    some (if shade.capabilities = some 7 then "secondary" else "primary", 100)
  else if scene_pos_key = "pos2" then
    some (if shade.capabilities = some 7 then "primary" else "secondary", 100)
  else if scene_pos_key = "tilt" then
    some ("tilt", 1)
  else none

/-- `Scene._check_individual_positions(scene_pos, shade_pos, shade)`:
walks the scene's target dict; `"vel"` and `"etaInSeconds"` entries are
skipped, keys the position/divisor table does not know are skipped, a
missing actual value fails, and a deviation of more than 2 units between
`scene_value // div` (Python floor division) and the actual value fails. -/
def checkIndividualPositions (scene_pos : List (String × Int))
    (shade_pos : PosDict) (shade : ShadeRec) : Bool :=
  match scene_pos with
  | [] => true
  | (element, scene_value) :: rest =>
    if element = "vel" ∨ element = "etaInSeconds" then
      checkIndividualPositions rest shade_pos shade
    else
      match getShadePositionAndDiv element shade with
      | none => checkIndividualPositions rest shade_pos shade
      | some (shade_pos_key, div) =>
        match pget shade_pos shade_pos_key with
        | none => false
        | some shade_value =>
          if (Int.fdiv scene_value div - shade_value).natAbs > 2 then false
          else checkIndividualPositions rest shade_pos shade

/-- The duolite exclusivity check of `Scene._check_member_positions` for
one member whose shade has capability class 8, 9 or 10: a `pos1` target
requires the actual secondary to read exactly 100, a `pos2` target
requires the actual primary to read exactly 0. -/
def duoliteOk (scene_pos : List (String × Int)) (shade_pos : PosDict) : Bool :=
  if hasKey scene_pos "pos1" ∧ pget shade_pos "secondary" ≠ some 100 then false
  else if hasKey scene_pos "pos2" ∧ pget shade_pos "primary" ≠ some 0 then false
  else true

/-- The body of the member loop of `Scene._check_member_positions` for a
single member: shade record present, individual positions within
tolerance, and the duolite check for capability classes 8, 9, 10. -/
def memberPasses (dm : DevMap) (sh : Member) : Bool :=
  match getShadeData dm sh.shd_Id with
  | none => false
  | some shade =>
    checkIndividualPositions sh.pos shade.positions shade &&
      (if shade.capabilities = some 8 ∨ shade.capabilities = some 9 ∨
          shade.capabilities = some 10 then
        duoliteOk sh.pos shade.positions
      else true)

/-- `Scene._check_member_positions(members)`: the loop returns `False` at
the first failing member and `True` once all members matched. -/
def checkMemberPositions (dm : DevMap) (members : List Member) : Bool :=
  members.all (memberPasses dm)

/-- Python `set.add` on the controller's `sceneIdsActive_calc`
(membership is what the node server reads back). -/
def setAdd (l : List String) (s : String) : List String :=
  if s ∈ l then l else l ++ [s]

/-- Python `set.discard`: remove if present, no error when absent. -/
def setDiscard (l : List String) (s : String) : List String :=
  l.filter (fun x => x ≠ s)

/-- The outcome of a `calcActive` run: the new `sceneIdsActive_calc`
set, the value written to the `ST` status driver, and the command
reported (`"DON"` / `"DOF"`). -/
abbrev CalcOutcome : Type := List String × Nat × String

/-- `Scene._handle_match`: add the scene id to the calculated-active
set, set `ST` to 1, report `DON`. -/
def handleMatch (calcSet : List String) (sid : String) : CalcOutcome :=
  (setAdd calcSet sid, 1, "DON")

/-- `Scene._handle_no_match`: discard the scene id from the
calculated-active set, set `ST` to 0, report `DOF`. -/
def handleNoMatch (calcSet : List String) (sid : String) : CalcOutcome :=
  (setDiscard calcSet sid, 0, "DOF")

/-- `self.controller.scenes_map.get(self.sid, {}).get("members", [])`:
the membership list of a scene, defaulting to empty. -/
def membersOf (scenes_map : List (String × List Member)) (sid : String) :
    List Member :=
  (aget scenes_map sid).getD []

/-- The control structure of `Scene.calcActive`: empty membership goes
to `_handle_no_match`; otherwise the evaluation of
`_check_member_positions` decides, and a Python exception raised during
the evaluation (the `error` side of `Except`) is caught by the
`except Exception` handler and also goes to `_handle_no_match`. -/
def calcActiveWith (calcSet : List String) (sid : String)
    (members : List Member) (ev : Except Unit Bool) : CalcOutcome :=
  match members with
  | [] => handleNoMatch calcSet sid
  | _ :: _ =>
    match ev with
    | .error _ => handleNoMatch calcSet sid
    | .ok true => handleMatch calcSet sid
    | .ok false => handleNoMatch calcSet sid

/-- `Scene.calcActive` with the member evaluation actually performed by
`_check_member_positions` (which, in this embedding, is total). -/
def calcActive (scenes_map : List (String × List Member)) (dm : DevMap)
    (calcSet : List String) (sid : String) : CalcOutcome :=
  let members := membersOf scenes_map sid
  calcActiveWith calcSet sid members (.ok (checkMemberPositions dm members))

/-!  Timestamp-ordered event selection
(`Scene._poll_events_for_tahoma`, `Shade._poll_events_for_g3`). -/

/-- A gateway event record, with the fields the selection reads: the
kind tag `"evt"`, the timestamp `"isoDate"` (absent on `home` records;
embedded as a natural, ordered as the ISO date strings are ordered), and
the target identifier `"id"`. -/
structure GEvent where
  evt : Option String
  isoDate : Option Nat
  id : Option String
deriving Repr, DecidableEq

/-- The key `lambda x: x["isoDate"]` used by the `min` call (on the
records it is applied to the timestamp is always present). -/
def isoKey (e : GEvent) : Nat :=
  e.isoDate.getD 0

/-- One comparison step of Python `min`: the running minimum is
replaced only when the new key is strictly smaller, so the first
minimal element wins. -/
def minStep (best x : GEvent) : GEvent :=
  if isoKey x < isoKey best then x else best

/-- Python `min(iterable, key=..., default={})`: an empty iterable
yields the default `{}` (embedded as `none`). -/
def minByIso (evs : List GEvent) : Option GEvent :=
  match evs with
  | [] => none
  | e :: rest => some (rest.foldl minStep e)

/-- The selection `min((e for e in gateway_events if e.get("isoDate") is
not None), key=..., default={})`. -/
def selectTimestamped (evs : List GEvent) : Option GEvent :=
  minByIso (evs.filter (fun e => e.isoDate.isSome))

/-- One pass of the entity-specific part of the consumer loop: the
record returned is the one the loop body processes, after the guard
`event.get("id") == self.sid`; `none` means the pass processes nothing
(the `{}` default has no `"id"`, and Python `None == sid` is false for a
string `sid`). -/
def pollPassSelect (sid : String) (evs : List GEvent) : Option GEvent :=
  match selectTimestamped evs with
  | none => none
  | some e => if e.id = some sid then some e else none

/-!  The event-polling retry loop of `Controller._poll_events`. -/

/-- `max_retries = 5` in `Controller._poll_events`. -/
def max_retries : Nat := 5

/-- `base_delay = 1` in `Controller._poll_events`. -/
def base_delay : Nat := 1

/-- The observable outcome of one run of the `while` loop of
`Controller._poll_events` over a finite script of fetch outcomes. -/
inductive FetchStep
  /-- `fetch_events` succeeded; `hasEvents` is the truthiness of the
  returned list (the retry counter is reset only inside `if events:`). -/
  | fetched (hasEvents : Bool)
  /-- `InvalidEventListenerIdException`, and re-registration succeeded. -/
  | expiredReregOk
  /-- `InvalidEventListenerIdException`, and re-registration failed. -/
  | expiredReregFail
  /-- `NoRegisteredEventListenerException`, re-registration succeeded. -/
  | noListenerRegOk
  /-- `NoRegisteredEventListenerException`, re-registration failed. -/
  | noListenerRegFail
  /-- any other exception from the fetch. -/
  | errorOther
deriving Repr, DecidableEq

/-- What a run of the polling loop did: the backoff delays slept (in
order; the fixed 1-second inter-cycle sleep is not listed), the number
of `"Max retries reached. Stopping event polling."` fatal signals, whether
the loop broke out early, and the final retry counter. -/
structure PollResult where
  delays : List Nat
  fatal : Nat
  stoppedEarly : Bool
  retries : Nat
deriving Repr, DecidableEq

/-- The `while not self.stop_event.is_set()` loop of
`Controller._poll_events`, run over a finite script of fetch outcomes
(the script ending stands for the stop event being set). -/
def pollLoop (retries : Nat) (steps : List FetchStep) : PollResult :=
  match steps with
  | [] => ⟨[], 0, false, retries⟩
  | s :: rest =>
    match s with
    | .fetched hasEvents => pollLoop (if hasEvents then 0 else retries) rest
    | .expiredReregOk => pollLoop retries rest
    | .expiredReregFail =>
      if retries ≥ max_retries then ⟨[], 1, true, retries⟩
      else
        let r := pollLoop (retries + 1) rest
        ⟨(base_delay * 2 ^ retries) :: r.delays, r.fatal, r.stoppedEarly, r.retries⟩
    | .noListenerRegOk => pollLoop retries rest
    | .noListenerRegFail => ⟨[], 0, true, retries⟩
    | .errorOther =>
      if retries ≥ max_retries then ⟨[], 1, true, retries⟩
      else
        let r := pollLoop (retries + 1) rest
        ⟨(base_delay * 2 ^ retries) :: r.delays, r.fatal, r.stoppedEarly, r.retries⟩

/-!  Configuration validators (`utils/config_validation.py`).
Python strings are embedded as lists of characters. -/

/-- Python `needle in haystack`: substring containment. -/
def strContains (needle haystack : List Char) : Bool :=
  decide (needle <:+: haystack)

/-- Python `d[k] = v` on a dict embedded as a key/value list: replace
the value at the existing key in place, else append the new key. -/
def dictSet {β : Type} (d : List (String × β)) (k : String) (v : β) :
    List (String × β) :=
  match d with
  | [] => [(k, v)]
  | (k2, w) :: rest =>
    if k2 = k then (k, v) :: rest else (k2, w) :: dictSet rest k v

/-- Python `d.update(data)`: assign every key of `data` into `d`. -/
def dictUpdate {β : Type} (d data : List (String × β)) : List (String × β) :=
  data.foldl (fun acc p => dictSet acc p.1 p.2) d

/-- `Controller.update_shade_data(sid, data)`: merge `data` into the
existing record for `sid` via `dict.update`, or store `data` as the new
record when `sid` is absent from `devices_map`. -/
def update_shade_data {β : Type} (dm : List (String × List (String × β)))
    (sid : String) (data : List (String × β)) :
    List (String × List (String × β)) :=
  match aget dm sid with
  | some d => dictSet dm sid (dictUpdate d data)
  | none => dm ++ [(sid, data)]

/-!  The discovery pass `Controller.discover` with its helpers
`_discover_devices`, `_discover_scenarios`, `_create_device_node`,
`_cleanup_nodes` and `_device_url_to_address`.  The remote gateway is an
external collaborator; a pass is run against the device and Scen
lists its `get_devices` / `get_scenarios` verbs would return. -/

/-- A remote device as returned by the gateway client. -/
structure TDevice where
  deviceURL : String
  label : String
  controllableName : String
deriving Repr, DecidableEq

/-- A remote scenario record as returned by the gateway client. -/
structure Scen where
  oid : String
  label : String
deriving Repr, DecidableEq

/-- What `_discover_devices` stores in `devices_map` for a device. -/
structure DevEntry where
  address : String
  label : String
  controllableName : String
deriving Repr, DecidableEq

/-- What `_discover_scenarios` stores in `scenarios_map`. -/
structure ScenEntry where
  address : String
  label : String
deriving Repr, DecidableEq

/-- The controller state a discovery pass reads and writes:
the reentrancy flag `discovery_in`, the Polyglot node population (by
address, including the controller node `"hdctrl"`), the two registry
maps, and the node-count driver value. -/
structure DiscoverState where
  discovery_in : Bool
  nodes : List String
  devices_map : List (String × DevEntry)
  scenarios_map : List (String × ScenEntry)
  numNodes : Nat
deriving Repr, DecidableEq

/-- The externally visible actions of a discovery pass: gateway
fetches, node creations (with the node class chosen), node retirements,
and the informational report of a coalesced call. -/
inductive DAct
  | getDevices
  | getScenarios
  | addNode (kind : String) (addr : String)
  | delNode (addr : String)
  | info (msg : String)
deriving Repr, DecidableEq

/-- `Controller._device_url_to_address`: last `/`-separated component of
the device URL, prefixed with `sh`, truncated to 14 characters,
lowercased. -/
def deviceUrlToAddress (device_url : String) : String :=
  let device_id := (device_url.splitOn "/").getLastD ""
  String.map Char.toLower (("sh" ++ device_id).take 14)

/-- `Controller._create_device_node`, reduced to the node class chosen
by the substring table over `controllable_name` (first match wins;
unknown types default to the full-capability `Shade` class). -/
def createDeviceNodeKind (controllable : String) : String :=
  if strContains "VenetianBlind".data controllable.data then "shadeid"
  else if strContains "DualRollerShutter".data controllable.data then "shadenotiltid"
  else if strContains "ExteriorScreen".data controllable.data ||
          strContains "Screen".data controllable.data then "shadeonlyprimid"
  else if strContains "RollerShutter".data controllable.data then "shadeonlyprimid"
  else if strContains "Awning".data controllable.data then "shadeonlyprimid"
  else if strContains "Curtain".data controllable.data then "shadeonlyprimid"
  else "shadeid"

/-- The loop body of `Controller._discover_devices` for one device:
store the device in `devices_map`, record its address in `nodes_new`,
and create a node when the address is not already present. -/
def discoverDeviceStep (nodes_existing : List String)
    (acc : DiscoverState × List String × List DAct) (dv : TDevice) :
    DiscoverState × List String × List DAct :=
  let (st, nodes_new, acts) := acc
  let addr := deviceUrlToAddress dv.deviceURL
  let st := { st with
    devices_map := dictSet st.devices_map dv.deviceURL
      ⟨addr, dv.label, dv.controllableName⟩ }
  let nodes_new := nodes_new ++ [addr]
  if nodes_existing.contains addr then (st, nodes_new, acts)
  else
    let kind := createDeviceNodeKind dv.controllableName
    ({ st with nodes := st.nodes ++ [addr] }, nodes_new,
      acts ++ [.addNode kind addr])

/-- The loop body of `Controller._discover_scenarios` for one remote
scenario record: store it in `scenarios_map`, record its address
`"scene" ++ oid`, and create a `Scene` node when absent. -/
def discoverScenStep (nodes_existing : List String)
    (acc : DiscoverState × List String × List DAct) (sc : Scen) :
    DiscoverState × List String × List DAct :=
  let (st, nodes_new, acts) := acc
  let addr := "scene" ++ sc.oid
  let st := { st with
    scenarios_map := dictSet st.scenarios_map sc.oid ⟨addr, sc.label⟩ }
  let nodes_new := nodes_new ++ [addr]
  if nodes_existing.contains addr then (st, nodes_new, acts)
  else
    ({ st with nodes := st.nodes ++ [addr] }, nodes_new,
      acts ++ [.addNode "sceneid" addr])

/-- `Controller.discover`: coalesce when a pass is already in flight,
else fetch devices, reconcile device nodes, fetch scenarios, reconcile
scene nodes, retire every non-controller node not observed this pass,
and store the new node count. -/
def discover (devices : List TDevice) (scens : List Scen)
    (st0 : DiscoverState) : Bool × DiscoverState × List DAct :=
  if st0.discovery_in then
    (false, st0, [.info "Discover already running."])
  else
    let st := { st0 with discovery_in := true }
    let nodes_existing := st.nodes
    let (st, nodes_new, devActs) :=
      devices.foldl (discoverDeviceStep nodes_existing) (st, [], [])
    let (st, nodes_new, scnActs) :=
      scens.foldl (discoverScenStep nodes_existing) (st, nodes_new, [])
    let nodes_get := st.nodes.filter (fun n => n ≠ "hdctrl")
    let toDelete := nodes_get.filter (fun n => !(nodes_new.contains n))
    let st := { st with
      nodes := st.nodes.filter (fun n => n = "hdctrl" || nodes_new.contains n),
      numNodes := nodes_new.length,
      discovery_in := false }
    (true, st,
      [DAct.getDevices] ++ devActs ++ [DAct.getScenarios] ++ scnActs ++
        toDelete.map DAct.delNode)

/-!  Helper lemmas about the embedded dictionaries. -/

lemma aget_append_of_none {β : Type} (l1 l2 : List (String × β)) (k : String)
    (h : aget l1 k = none) : aget (l1 ++ l2) k = aget l2 k := by
  induction l1 with
  | nil => rfl
  | cons p rest ih =>
    obtain ⟨k2, v⟩ := p
    by_cases hk : k2 = k
    · rw [aget, if_pos hk] at h
      cases h
    · rw [List.cons_append, aget, if_neg hk]
      rw [aget, if_neg hk] at h
      exact ih h

lemma aget_eq_none_of_not_mem {β : Type} (d : List (String × β)) (k : String)
    (h : k ∉ d.map Prod.fst) : aget d k = none := by
  induction d with
  | nil => rfl
  | cons p rest ih =>
    obtain ⟨k2, v⟩ := p
    simp only [List.map_cons, List.mem_cons, not_or] at h
    have hne : ¬ k2 = k := fun e => h.1 e.symm
    rw [aget, if_neg hne]
    exact ih h.2

lemma aget_dictSet_self {β : Type} (d : List (String × β)) (k : String) (v : β) :
    aget (dictSet d k v) k = some v := by
  induction d with
  | nil => simp [dictSet, aget]
  | cons p rest ih =>
    obtain ⟨k2, w⟩ := p
    by_cases hk : k2 = k
    · rw [dictSet, if_pos hk, aget, if_pos rfl]
    · rw [dictSet, if_neg hk, aget, if_neg hk]
      exact ih

lemma aget_dictSet_ne {β : Type} (d : List (String × β)) (k k2 : String) (v : β)
    (h : k2 ≠ k) : aget (dictSet d k v) k2 = aget d k2 := by
  have hne : ¬ k = k2 := fun e => h e.symm
  induction d with
  | nil => simp [dictSet, aget, hne]
  | cons p rest ih =>
    obtain ⟨k3, w⟩ := p
    by_cases hk : k3 = k
    · rw [dictSet, if_pos hk, aget, if_neg hne, aget, if_neg (hk ▸ hne)]
    · rw [dictSet, if_neg hk, aget, aget]
      by_cases hk2 : k3 = k2
      · rw [if_pos hk2, if_pos hk2]
      · rw [if_neg hk2, if_neg hk2]
        exact ih

lemma aget_dictUpdate_none {β : Type} (data : List (String × β)) :
    ∀ (d : List (String × β)) (k : String), aget data k = none →
      aget (dictUpdate d data) k = aget d k := by
  induction data with
  | nil => intro d k _; rfl
  | cons p rest ih =>
    intro d k h
    obtain ⟨k0, v0⟩ := p
    have hk : k0 ≠ k := by
      intro e
      simp [aget, e] at h
    have h2 : aget rest k = none := by
      simpa [aget, hk] using h
    simp only [dictUpdate, List.foldl_cons] at ih ⊢
    rw [ih (dictSet d k0 v0) k h2, aget_dictSet_ne _ _ _ _ (fun e => hk e.symm)]

lemma aget_dictUpdate_some {β : Type} (data : List (String × β)) :
    ∀ (d : List (String × β)) (k : String) (v : β),
      (data.map Prod.fst).Nodup → aget data k = some v →
      aget (dictUpdate d data) k = some v := by
  induction data with
  | nil =>
    intro d k v _ h
    simp [aget] at h
  | cons p rest ih =>
    intro d k v hnd h
    obtain ⟨k0, v0⟩ := p
    simp only [List.map_cons, List.nodup_cons] at hnd
    by_cases hk : k0 = k
    · subst hk
      have hv : v0 = v := by simpa [aget] using h
      subst hv
      have hrest : aget rest k0 = none := aget_eq_none_of_not_mem rest k0 hnd.1
      simp only [dictUpdate, List.foldl_cons]
      have := aget_dictUpdate_none rest (dictSet d k0 v0) k0 hrest
      simp only [dictUpdate] at this
      rw [this, aget_dictSet_self]
    · have h2 : aget rest k = some v := by simpa [aget, hk] using h
      simp only [dictUpdate, List.foldl_cons] at ih ⊢
      exact ih (dictSet d k0 v0) k v hnd.2 h2

/-!  Helper lemmas about `pyStrip`. -/

lemma gspd_skip (e : String) (sh : ShadeRec)
    (h : e = "vel" ∨ e = "etaInSeconds") :
    getShadePositionAndDiv e sh = none := by
  rcases h with h | h <;> subst h <;> simp [getShadePositionAndDiv]

lemma gspd_other (e : String) (sh : ShadeRec) (h1 : e ≠ "vel")
    (h2 : e ≠ "pos1") (h3 : e ≠ "pos2") (h4 : e ≠ "tilt") :
    getShadePositionAndDiv e sh = none := by
  simp [getShadePositionAndDiv, h1, h2, h3, h4]

/-- Characterization of `_check_individual_positions`: it passes exactly
when every target entry that the table maps to a position field finds an
actual value within tolerance 2 of the scaled target. -/
lemma checkIndividual_iff (sp : List (String × Int)) (shp : PosDict)
    (sh : ShadeRec) :
    checkIndividualPositions sp shp sh = true ↔
      ∀ e v, (e, v) ∈ sp → ∀ key div,
        getShadePositionAndDiv e sh = some (key, div) →
        ∃ sv, pget shp key = some sv ∧
          (Int.fdiv v div - sv).natAbs ≤ 2 := by
  induction sp with
  | nil => simp [checkIndividualPositions]
  | cons p rest ih =>
    obtain ⟨element, scene_value⟩ := p
    by_cases hskip : element = "vel" ∨ element = "etaInSeconds"
    · have hg : getShadePositionAndDiv element sh = none := gspd_skip _ _ hskip
      rw [show checkIndividualPositions ((element, scene_value) :: rest) shp sh
            = checkIndividualPositions rest shp sh by
          simp [checkIndividualPositions, hskip]]
      rw [ih]
      constructor
      · intro h e v hmem key div hkd
        rcases List.mem_cons.mp hmem with heq | hmem2
        · have he : e = element := congrArg Prod.fst heq
          rw [he, hg] at hkd
          cases hkd
        · exact h e v hmem2 key div hkd
      · intro h e v hmem key div hkd
        exact h e v (List.mem_cons_of_mem _ hmem) key div hkd
    · push_neg at hskip
      cases hg : getShadePositionAndDiv element sh with
      | none =>
        rw [show checkIndividualPositions ((element, scene_value) :: rest) shp sh
              = checkIndividualPositions rest shp sh by
            simp [checkIndividualPositions, hskip.1, hskip.2, hg]]
        rw [ih]
        constructor
        · intro h e v hmem key div hkd
          rcases List.mem_cons.mp hmem with heq | hmem2
          · have he : e = element := congrArg Prod.fst heq
            rw [he, hg] at hkd
            cases hkd
          · exact h e v hmem2 key div hkd
        · intro h e v hmem key div hkd
          exact h e v (List.mem_cons_of_mem _ hmem) key div hkd
      | some kd =>
        obtain ⟨key0, div0⟩ := kd
        cases hp : pget shp key0 with
        | none =>
          rw [show checkIndividualPositions ((element, scene_value) :: rest) shp sh
                = false by
              simp [checkIndividualPositions, hskip.1, hskip.2, hg, hp]]
          constructor
          · intro h
            cases h
          · intro h
            exfalso
            obtain ⟨sv, hsv, _⟩ :=
              h element scene_value (List.mem_cons_self _ _) key0 div0 hg
            rw [hp] at hsv
            cases hsv
        | some sv0 =>
          by_cases hdev : (Int.fdiv scene_value div0 - sv0).natAbs > 2
          · rw [show checkIndividualPositions ((element, scene_value) :: rest) shp sh
                  = false by
                simp [checkIndividualPositions, hskip.1, hskip.2, hg, hp, hdev]]
            constructor
            · intro h
              cases h
            · intro h
              exfalso
              obtain ⟨sv, hsv, hle⟩ :=
                h element scene_value (List.mem_cons_self _ _) key0 div0 hg
              rw [hp] at hsv
              have hsv2 : sv0 = sv := by
                injection hsv
              omega
          · rw [show checkIndividualPositions ((element, scene_value) :: rest) shp sh
                  = checkIndividualPositions rest shp sh by
                simp [checkIndividualPositions, hskip.1, hskip.2, hg, hp, hdev]]
            rw [ih]
            constructor
            · intro h e v hmem key div hkd
              rcases List.mem_cons.mp hmem with heq | hmem2
              · have he : e = element := congrArg Prod.fst heq
                have hv : v = scene_value := congrArg Prod.snd heq
                rw [he, hg] at hkd
                have hkey : key = key0 := by
                  have := congrArg (fun o => (Option.getD o ("", 0)).1) hkd
                  simpa using this.symm
                have hdiv : div = div0 := by
                  have := congrArg (fun o => (Option.getD o ("", 0)).2) hkd
                  simpa using this.symm
                refine ⟨sv0, by rw [hkey]; exact hp, ?_⟩
                rw [hv, hdiv]
                omega
              · exact h e v hmem2 key div hkd
            · intro h e v hmem key div hkd
              exact h e v (List.mem_cons_of_mem _ hmem) key div hkd

/-- A failing member makes the whole member check fail. -/
lemma checkMember_false_of_mem (dm : DevMap) (members : List Member)
    (m : Member) (hm : m ∈ members) (hf : memberPasses dm m = false) :
    checkMemberPositions dm members = false := by
  unfold checkMemberPositions
  by_contra h
  rw [Bool.not_eq_false] at h
  have := List.all_eq_true.mp h m hm
  rw [hf] at this
  cases this

/-!  Helper lemmas about the Python `min` fold. -/

lemma foldl_minStep_mem (l : List GEvent) (a : GEvent) :
    l.foldl minStep a ∈ a :: l := by
  induction l generalizing a with
  | nil => simp
  | cons x xs ih =>
    rw [List.foldl_cons]
    by_cases hc : isoKey x < isoKey a
    · rw [show minStep a x = x by rw [minStep, if_pos hc]]
      exact List.mem_cons_of_mem _ (ih x)
    · rw [show minStep a x = a by rw [minStep, if_neg hc]]
      rcases List.mem_cons.mp (ih a) with h | h
      · rw [h]
        exact List.mem_cons_self _ _
      · exact List.mem_cons_of_mem _ (List.mem_cons_of_mem _ h)

lemma foldl_minStep_le (l : List GEvent) (a : GEvent) :
    ∀ x ∈ a :: l, isoKey (l.foldl minStep a) ≤ isoKey x := by
  induction l generalizing a with
  | nil =>
    intro x hx
    rcases List.mem_cons.mp hx with h | h
    · rw [h]
      exact le_refl _
    · cases h
  | cons y ys ih =>
    intro x hx
    rw [List.foldl_cons]
    have hstep_a : isoKey (minStep a y) ≤ isoKey a := by
      rw [minStep]
      split
      · omega
      · exact le_refl _
    have hstep_y : isoKey (minStep a y) ≤ isoKey y := by
      rw [minStep]
      split
      · exact le_refl _
      · omega
    have hfold : isoKey (ys.foldl minStep (minStep a y)) ≤ isoKey (minStep a y) :=
      ih (minStep a y) _ (List.mem_cons_self _ _)
    rcases List.mem_cons.mp hx with h | h
    · rw [h]
      exact le_trans hfold hstep_a
    · rcases List.mem_cons.mp h with h2 | h2
      · rw [h2]
        exact le_trans hfold hstep_y
      · exact ih (minStep a y) x (List.mem_cons_of_mem _ h2)

lemma minByIso_spec (l : List GEvent) (e : GEvent) (h : minByIso l = some e) :
    e ∈ l ∧ ∀ x ∈ l, isoKey e ≤ isoKey x := by
  cases l with
  | nil => cases h
  | cons a rest =>
    rw [minByIso] at h
    have he : rest.foldl minStep a = e := by
      injection h
    constructor
    · exact he ▸ foldl_minStep_mem rest a
    · intro x hx
      exact he ▸ foldl_minStep_le rest a x hx

/-!  The claims. -/

/-- C1: in the scene activity calculation, for every shade whose
capability class is not 7 the scene target key `pos1` is compared
against the shade's `primary` position and `pos2` against `secondary`;
for capability class 7 the mapping is swapped; the divisor is 100 in all
four cases, and `tilt` maps to `tilt` with divisor 1. -/
theorem scene_axis_mapping (shade : ShadeRec) :
    (shade.capabilities ≠ some 7 →
      getShadePositionAndDiv "pos1" shade = some ("primary", 100) ∧
      getShadePositionAndDiv "pos2" shade = some ("secondary", 100)) ∧
    (shade.capabilities = some 7 →
      getShadePositionAndDiv "pos1" shade = some ("secondary", 100) ∧
      getShadePositionAndDiv "pos2" shade = some ("primary", 100)) ∧
    getShadePositionAndDiv "tilt" shade = some ("tilt", 1) := by
  refine ⟨fun h => ?_, fun h => ?_, ?_⟩
  · constructor <;> simp [getShadePositionAndDiv, h]
  · constructor <;> simp [getShadePositionAndDiv, h]
  · simp [getShadePositionAndDiv]

theorem scene_axis_mapping_witness :
    ((⟨some 3, []⟩ : ShadeRec).capabilities ≠ some 7 ∧
      getShadePositionAndDiv "pos1" ⟨some 3, []⟩ = some ("primary", 100)) ∧
    ((⟨some 7, []⟩ : ShadeRec).capabilities = some 7 ∧
      getShadePositionAndDiv "pos1" ⟨some 7, []⟩ = some ("secondary", 100)) :=
  ⟨⟨by decide, ((scene_axis_mapping ⟨some 3, []⟩).1 (by decide)).1⟩,
   ⟨rfl, ((scene_axis_mapping ⟨some 7, []⟩).2.1 rfl).1⟩⟩

/-- C2: the individual position check passes exactly when every targeted
axis finds an actual value whose distance from the target divided by the
axis divisor is at most 2, and any deviation of more than 2 units on a
targeted axis of any member makes the member check return no-match. -/
theorem tolerance_check (sp : List (String × Int)) (shp : PosDict)
    (sh : ShadeRec) :
    (checkIndividualPositions sp shp sh = true ↔
      ∀ e v, (e, v) ∈ sp → ∀ key div,
        getShadePositionAndDiv e sh = some (key, div) →
        ∃ sv, pget shp key = some sv ∧
          (Int.fdiv v div - sv).natAbs ≤ 2) ∧
    (∀ (dm : DevMap) (members : List Member) (m : Member) (shade : ShadeRec),
      m ∈ members → getShadeData dm m.shd_Id = some shade →
      ∀ e v key div sv, (e, v) ∈ m.pos →
        getShadePositionAndDiv e shade = some (key, div) →
        pget shade.positions key = some sv →
        2 < (Int.fdiv v div - sv).natAbs →
        checkMemberPositions dm members = false) := by
  constructor
  · exact checkIndividual_iff sp shp sh
  · intro dm members m shade hm hsd e v key div sv hmem hkd hp hdev
    apply checkMember_false_of_mem dm members m hm
    have hci : checkIndividualPositions m.pos shade.positions shade = false := by
      by_contra hc
      rw [Bool.not_eq_false] at hc
      obtain ⟨sv2, hsv2, hle⟩ :=
        (checkIndividual_iff _ _ _).mp hc e v hmem key div hkd
      rw [hp] at hsv2
      have hsv3 : sv = sv2 := by
        injection hsv2
      omega
    simp [memberPasses, hsd, hci]

theorem tolerance_check_witness :
    checkMemberPositions [("s1", ⟨some 0, [("primary", some 47)]⟩)]
      [⟨some "s1", [("pos1", 5000)]⟩] = false :=
  (tolerance_check [] [] ⟨none, []⟩).2
    [("s1", ⟨some 0, [("primary", some 47)]⟩)]
    [⟨some "s1", [("pos1", 5000)]⟩]
    ⟨some "s1", [("pos1", 5000)]⟩
    ⟨some 0, [("primary", some 47)]⟩
    (List.mem_cons_self _ _) rfl
    "pos1" 5000 "primary" 100 47
    (List.mem_cons_self _ _) rfl rfl (by decide)

/-- C3: for a scene member whose shade has capability class 8, 9 or 10,
the member check fails whenever a `pos1` target is present and the
actual secondary position is not exactly 100, and symmetrically for a
`pos2` target against the primary position reading exactly 0. -/
theorem duolite_exclusivity (dm : DevMap) (members : List Member)
    (m : Member) (shade : ShadeRec) (hm : m ∈ members)
    (hsd : getShadeData dm m.shd_Id = some shade)
    (hcap : shade.capabilities = some 8 ∨ shade.capabilities = some 9 ∨
      shade.capabilities = some 10) :
    (hasKey m.pos "pos1" = true → pget shade.positions "secondary" ≠ some 100 →
      checkMemberPositions dm members = false) ∧
    (hasKey m.pos "pos2" = true → pget shade.positions "primary" ≠ some 0 →
      checkMemberPositions dm members = false) := by
  constructor
  · intro h1 h2
    apply checkMember_false_of_mem dm members m hm
    have hduo : duoliteOk m.pos shade.positions = false := by
      rw [duoliteOk, if_pos ⟨h1, h2⟩]
    simp [memberPasses, hsd, hcap, hduo]
  · intro h1 h2
    apply checkMember_false_of_mem dm members m hm
    have hduo : duoliteOk m.pos shade.positions = false := by
      rw [duoliteOk]
      by_cases hfirst : hasKey m.pos "pos1" = true ∧
          pget shade.positions "secondary" ≠ some 100
      · rw [if_pos hfirst]
      · rw [if_neg hfirst, if_pos ⟨h1, h2⟩]
    simp [memberPasses, hsd, hcap, hduo]

/-- In particular (witness): a capability-8 member with a `pos1` target
and actual secondary 99 fails even though the primary axis is within
tolerance. -/
theorem duolite_exclusivity_witness :
    checkMemberPositions
        [("s1", ⟨some 8, [("primary", some 50), ("secondary", some 99)]⟩)]
        [⟨some "s1", [("pos1", 5000)]⟩] = false ∧
    checkIndividualPositions [("pos1", (5000 : Int))]
        [("primary", some 50), ("secondary", some 99)]
        ⟨some 8, [("primary", some 50), ("secondary", some 99)]⟩ = true :=
  ⟨(duolite_exclusivity
      [("s1", ⟨some 8, [("primary", some 50), ("secondary", some 99)]⟩)]
      [⟨some "s1", [("pos1", 5000)]⟩]
      ⟨some "s1", [("pos1", 5000)]⟩
      ⟨some 8, [("primary", some 50), ("secondary", some 99)]⟩
      (List.mem_cons_self _ _) rfl (Or.inl rfl)).1 rfl (by decide),
   by decide⟩

/-- C10: a scene target key that is none of `pos1`, `pos2`, `tilt`
(including `vel` and `etaInSeconds`) is skipped entirely by the
individual position check: it is never compared and cannot cause a
no-match, for every shade and every target value. -/
theorem unknown_axis_skipped (e : String)
    (he : e ∉ (["pos1", "pos2", "tilt"] : List String)) (v : Int)
    (rest : List (String × Int)) (shp : PosDict) (sh : ShadeRec) :
    checkIndividualPositions ((e, v) :: rest) shp sh =
      checkIndividualPositions rest shp sh := by
  simp only [List.mem_cons, not_or] at he
  by_cases hskip : e = "vel" ∨ e = "etaInSeconds"
  · simp [checkIndividualPositions, hskip]
  · push_neg at hskip
    have hg : getShadePositionAndDiv e sh = none :=
      gspd_other e sh hskip.1 he.1 he.2.1 he.2.2.1
    simp [checkIndividualPositions, hskip.1, hskip.2, hg]

theorem unknown_axis_skipped_witness :
    ("etaInSeconds" ∉ (["pos1", "pos2", "tilt"] : List String)) ∧
    checkIndividualPositions [("etaInSeconds", (120 : Int)), ("pos1", 5000)]
        [("primary", some 50)] ⟨some 0, []⟩ =
      checkIndividualPositions [("pos1", (5000 : Int))]
        [("primary", some 50)] ⟨some 0, []⟩ :=
  ⟨by decide,
   unknown_axis_skipped "etaInSeconds" (by decide) 120
     [("pos1", 5000)] [("primary", some 50)] ⟨some 0, []⟩⟩

/-- C4: `calcActive` produces the no-match outcome (scene id discarded
from the calculated-active set, `ST` driver 0, `DOF` reported) when the
membership list is empty, when some member's shade record is absent from
the device map, and when the evaluation raises; it produces the match
outcome exactly when the membership is non-empty and every member passes
every check. -/
theorem calc_active_outcomes (scenes_map : List (String × List Member))
    (dm : DevMap) (calcSet : List String) (sid : String) :
    (membersOf scenes_map sid = [] →
      calcActive scenes_map dm calcSet sid = handleNoMatch calcSet sid) ∧
    ((∃ m ∈ membersOf scenes_map sid, getShadeData dm m.shd_Id = none) →
      calcActive scenes_map dm calcSet sid = handleNoMatch calcSet sid) ∧
    (∀ members : List Member,
      calcActiveWith calcSet sid members (.error ()) =
        handleNoMatch calcSet sid) ∧
    (calcActive scenes_map dm calcSet sid = handleMatch calcSet sid ↔
      membersOf scenes_map sid ≠ [] ∧
      ∀ m ∈ membersOf scenes_map sid, memberPasses dm m = true) ∧
    (sid ∉ (handleNoMatch calcSet sid).1 ∧
      (handleNoMatch calcSet sid).2.1 = 0 ∧
      (handleNoMatch calcSet sid).2.2 = "DOF" ∧
      sid ∈ (handleMatch calcSet sid).1 ∧
      (handleMatch calcSet sid).2.1 = 1 ∧
      (handleMatch calcSet sid).2.2 = "DON") := by
  have hne : handleNoMatch calcSet sid ≠ handleMatch calcSet sid := by
    intro h
    have := congrArg (fun o => o.2.1) h
    simp [handleNoMatch, handleMatch] at this
  refine ⟨?_, ?_, ?_, ?_, ?_, rfl, rfl, ?_, rfl, rfl⟩
  · intro h
    simp [calcActive, calcActiveWith, h]
  · intro h
    obtain ⟨m, hm, hnone⟩ := h
    have hf : memberPasses dm m = false := by
      simp [memberPasses, hnone]
    have hcm : checkMemberPositions dm (membersOf scenes_map sid) = false :=
      checkMember_false_of_mem _ _ m hm hf
    cases hmem : membersOf scenes_map sid with
    | nil => simp [calcActive, calcActiveWith, hmem]
    | cons a as =>
      rw [hmem] at hcm
      simp [calcActive, calcActiveWith, hmem, hcm]
  · intro members
    cases members <;> rfl
  · cases hmem : membersOf scenes_map sid with
    | nil =>
      simp only [calcActive, hmem, calcActiveWith]
      constructor
      · intro h
        exact absurd h hne
      · intro h
        exact absurd rfl h.1
    | cons a as =>
      cases hb : checkMemberPositions dm (a :: as) with
      | true =>
        have hc : calcActive scenes_map dm calcSet sid =
            handleMatch calcSet sid := by
          simp [calcActive, calcActiveWith, hmem, hb]
        rw [hc]
        constructor
        · intro _
          exact ⟨by simp, fun m hm => List.all_eq_true.mp hb m hm⟩
        · intro _
          rfl
      | false =>
        have hc : calcActive scenes_map dm calcSet sid =
            handleNoMatch calcSet sid := by
          simp [calcActive, calcActiveWith, hmem, hb]
        rw [hc]
        constructor
        · intro h
          exact absurd h hne
        · intro h
          have := List.all_eq_true.mpr h.2
          rw [checkMemberPositions] at hb
          rw [this] at hb
          cases hb
  · simp [handleNoMatch, setDiscard]
  · by_cases h : sid ∈ calcSet <;> simp [handleMatch, setAdd, h]

theorem calc_active_outcomes_witness :
    calcActive [("sc", [])] [] ["sc"] "sc" = handleNoMatch ["sc"] "sc" :=
  (calc_active_outcomes [("sc", [])] [] ["sc"] "sc").1 rfl

/-- C5: when a pass of an entity consumer loop selects an
entity-specific record for processing, that record carries a timestamp
that is minimal among all queued records carrying one, and it is
processed only because its target identifier equals the entity's. -/
theorem event_time_order (sid : String) (evs : List GEvent) (e : GEvent)
    (h : pollPassSelect sid evs = some e) :
    e ∈ evs ∧ e.id = some sid ∧ e.isoDate.isSome = true ∧
    ∀ e2 ∈ evs, ∀ t2, e2.isoDate = some t2 →
      ∀ t, e.isoDate = some t → t ≤ t2 := by
  unfold pollPassSelect at h
  cases hs : selectTimestamped evs with
  | none =>
    rw [hs] at h
    cases h
  | some e0 =>
    rw [hs] at h
    have h2 : (if e0.id = some sid then some e0 else none) = some e := h
    by_cases hid : e0.id = some sid
    · rw [if_pos hid] at h2
      have he : e0 = e := by
        injection h2
      subst he
      unfold selectTimestamped at hs
      obtain ⟨hmemf, hle⟩ := minByIso_spec _ _ hs
      have hmem := List.mem_filter.mp hmemf
      refine ⟨hmem.1, hid, hmem.2, ?_⟩
      intro e2 he2 t2 ht2 t ht
      have h2f : e2 ∈ evs.filter (fun ev => ev.isoDate.isSome) :=
        List.mem_filter.mpr ⟨he2, by rw [ht2]; rfl⟩
      have hlek := hle e2 h2f
      rw [isoKey, isoKey, ht, ht2] at hlek
      simpa using hlek
    · rw [if_neg hid] at h2
      cases h2

theorem event_time_order_witness :
    (⟨some "y", some 3, some "b"⟩ : GEvent) ∈
      [⟨some "x", some 5, some "b"⟩, ⟨some "y", some 3, some "b"⟩] ∧
    (⟨some "y", some 3, some "b"⟩ : GEvent).id = some "b" :=
  ⟨(event_time_order "b"
      [⟨some "x", some 5, some "b"⟩, ⟨some "y", some 3, some "b"⟩]
      ⟨some "y", some 3, some "b"⟩ (by decide)).1,
   (event_time_order "b"
      [⟨some "x", some 5, some "b"⟩, ⟨some "y", some 3, some "b"⟩]
      ⟨some "y", some 3, some "b"⟩ (by decide)).2.1⟩

/-- C6 (counterexample): after 5 consecutive re-registration failures
the polling loop has NOT stopped and no fatal signal has been raised —
the loop sleeps the fifth backoff delay and continues; only a sixth
consecutive failure stops it. -/
theorem poller_backoff_counterexample :
    (pollLoop 0 (List.replicate 5 .expiredReregFail)).stoppedEarly = false ∧
    (pollLoop 0 (List.replicate 5 .expiredReregFail)).fatal = 0 := by
  decide

/-- C6 (amended): on 6 consecutive re-registration failures the loop
stops and raises the fatal signal exactly once, having slept backoff
delays `base_delay * 2 ^ (k-1)` before the k-th retry (k = 1..5); a
failure followed by a fetch that returns events resets the retry
counter to zero, the continuation behaving as a fresh run. -/
theorem poller_backoff (rest rest2 : List FetchStep) (r : Nat)
    (hr : r < max_retries) :
    (pollLoop 0 (.expiredReregFail :: .expiredReregFail :: .expiredReregFail ::
        .expiredReregFail :: .expiredReregFail :: .expiredReregFail :: rest) =
      ⟨[1, 2, 4, 8, 16], 1, true, 5⟩) ∧
    ([1, 2, 4, 8, 16] = (List.range 5).map (fun k => base_delay * 2 ^ k)) ∧
    (pollLoop r (.expiredReregFail :: .fetched true :: rest2) =
      ⟨base_delay * 2 ^ r :: (pollLoop 0 rest2).delays,
        (pollLoop 0 rest2).fatal, (pollLoop 0 rest2).stoppedEarly,
        (pollLoop 0 rest2).retries⟩) := by
  refine ⟨?_, by decide, ?_⟩
  · simp [pollLoop, max_retries, base_delay]
  · have hr5 : ¬ r ≥ max_retries := by
      omega
    simp [pollLoop, hr5]

theorem poller_backoff_witness :
    pollLoop 0 (.expiredReregFail :: .fetched true :: []) =
      ⟨base_delay * 2 ^ 0 :: (pollLoop 0 []).delays, (pollLoop 0 []).fatal,
        (pollLoop 0 []).stoppedEarly, (pollLoop 0 []).retries⟩ :=
  (poller_backoff [] [] 0 (by decide)).2.2

/-- C7: a call to `discover` while a pass is already in flight returns
immediately with the "already running" report and the failure flag of a
coalesced (not erroneous) return: no device or scenario fetch, no node
creation, no node retirement, and no state change. -/
theorem discover_coalesced (devices : List TDevice) (scens : List Scen)
    (st : DiscoverState) (h : st.discovery_in = true) :
    discover devices scens st =
      (false, st, [.info "Discover already running."]) ∧
    (∀ a ∈ (discover devices scens st).2.2,
      a = DAct.info "Discover already running.") ∧
    (discover devices scens st).2.1 = st := by
  have hd : discover devices scens st =
      (false, st, [.info "Discover already running."]) := by
    simp [discover, h]
  refine ⟨hd, ?_, by rw [hd]⟩
  rw [hd]
  intro a ha
  simpa using ha

theorem discover_coalesced_witness :
    discover [] [] ⟨true, ["hdctrl"], [], [], 0⟩ =
      (false, ⟨true, ["hdctrl"], [], [], 0⟩,
        [.info "Discover already running."]) :=
  (discover_coalesced [] [] ⟨true, ["hdctrl"], [], [], 0⟩ rfl).1

/-- C9: `update_shade_data` merges rather than replaces: for an
identifier already present the stored record keeps every key that `data`
does not set and takes the value of every key it does; for an absent
identifier the stored record becomes exactly `data`. -/
theorem registry_merge {β : Type} (dm : List (String × List (String × β)))
    (sid : String) (data : List (String × β)) (k : String)
    (hnd : (data.map Prod.fst).Nodup) :
    (∀ d, aget dm sid = some d →
      aget (update_shade_data dm sid data) sid = some (dictUpdate d data) ∧
      (aget data k = none → aget (dictUpdate d data) k = aget d k) ∧
      (∀ v, aget data k = some v → aget (dictUpdate d data) k = some v)) ∧
    (aget dm sid = none →
      aget (update_shade_data dm sid data) sid = some data) := by
  constructor
  · intro d hd
    refine ⟨?_, fun hn => aget_dictUpdate_none data d k hn,
      fun v hv => aget_dictUpdate_some data d k v hnd hv⟩
    simp only [update_shade_data]
    rw [hd]
    exact aget_dictSet_self dm sid (dictUpdate d data)
  · intro hnone
    simp only [update_shade_data]
    rw [hnone]
    rw [aget_append_of_none dm [(sid, data)] sid hnone]
    simp [aget]

theorem registry_merge_witness :
    (aget (update_shade_data [("s1", [("name", 1), ("pos", 2)])] "s1"
        [("pos", 9)]) "s1"
      = some (dictUpdate [("name", (1 : Nat)), ("pos", 2)] [("pos", 9)])) ∧
    (aget (dictUpdate [("name", (1 : Nat)), ("pos", 2)] [("pos", 9)]) "name"
      = some 1) ∧
    (aget (dictUpdate [("name", (1 : Nat)), ("pos", 2)] [("pos", 9)]) "pos"
      = some 9) :=
  ⟨((registry_merge [("s1", [("name", (1 : Nat)), ("pos", 2)])] "s1"
      [("pos", 9)] "name" (by decide)).1
      [("name", 1), ("pos", 2)] rfl).1,
   (((registry_merge [("s1", [("name", (1 : Nat)), ("pos", 2)])] "s1"
      [("pos", 9)] "name" (by decide)).1
      [("name", 1), ("pos", 2)] rfl).2.1 rfl).trans (by decide),
   ((registry_merge [("s1", [("name", (1 : Nat)), ("pos", 2)])] "s1"
      [("pos", 9)] "pos" (by decide)).1
      [("name", 1), ("pos", 2)] rfl).2.2 9 rfl⟩

end PhantomBlinds
